import Mathlib

/-!
Verification development for the LKAN training harness.

The development shallowly embeds the two source files of the repository:

* `lkan/loggers.py` — `flatten_dict`, the hyperparameter coercion loop of
  `CustomLogger.__init__`, `CustomLogger.folder_structure`, and
  `CustomLogger.update_hyperparams`;
* `lkan/trainers/base.py` — `BaseTrainer.training_step` and
  `BaseTrainer.fit`.

Machine-level side effects (tensorboard writes, tensor arithmetic, file
contents) are abstracted; what the embedding tracks exactly is the control
flow of the loops: the global step counter, the stop flag, uncaught
exceptions (`errored` for `ZeroDivisionError` on a zero modulus,
`attrErrored` for the `AttributeError` raised when `fit` reads the
`self.lr_scheduler` attribute that `__init__` leaves unset for a trainer
constructed without a scheduler; either flag freezes the state, mirroring
exception propagation), the list of optimizer updates together with the
gradient contents used by each, the checkpoint-save steps, the validation
calls, and the learning-rate scheduler advances.
-/

namespace LKAN

/-! ## Configuration values (`loggers.py`)

Python configuration objects are nested dictionaries whose leaves are
strings, numbers, etc.  We model the value kinds the claims exercise. -/

inductive CfgValue where
  | str (s : String)
  | nat (n : Nat)
  | dict (entries : List (String × CfgValue))

/-- Python's `str(value)` on the value kinds we model.  In the logger it is
only ever applied to non-`dict` leaves produced by `flatten_dict`; the
`dict` case is given an arbitrary printable form. -/
def pyStr : CfgValue → String
  | CfgValue.str s => s
  | CfgValue.nat n => toString n
  | CfgValue.dict _ => "dict"

/-- `isinstance(value, str)`. -/
def isStr : CfgValue → Bool
  | CfgValue.str _ => true
  | _ => false

/-- `loggers.flatten_dict(d, parent_key, sep)`: nested keys are joined with
`sep`; non-dict leaves are emitted in traversal order. -/
def flatten_dict : List (String × CfgValue) → String → String → List (String × CfgValue)
  | [], _, _ => []
  | (k, v) :: rest, parent_key, sep =>
    let new_key := if parent_key = "" then k else parent_key ++ sep ++ k
    (match v with
     | CfgValue.dict sub => flatten_dict sub new_key sep
     | v => [(new_key, v)]) ++ flatten_dict rest parent_key sep

/-- The hyperparameter map built in `CustomLogger.__init__`: flatten the
config, then replace every non-string value by `str(value)`. -/
def init_hparams (cfg : List (String × CfgValue)) : List (String × CfgValue) :=
  let hparams := flatten_dict cfg "" "/"
  hparams.map (fun kv => if isStr kv.2 then kv else (kv.1, CfgValue.str (pyStr kv.2)))

/-- First value stored under key `k`, as Python `d[k]` lookup on our
association-list model of a dict. -/
def lookupVal (k : String) (l : List (String × CfgValue)) : Option CfgValue :=
  (l.find? (fun kv => kv.1 == k)).map (fun kv => kv.2)

/-- Python `old.update(new)` on our association-list model of a dict:
values of keys present in `new` are replaced, fresh keys are appended in
order.  No coercion of any kind is applied to the incoming values. -/
def dictUpdate (old new : List (String × CfgValue)) : List (String × CfgValue) :=
  old.map (fun kv =>
    match lookupVal kv.1 new with
    | Option.some v => (kv.1, v)
    | Option.none => kv)
  ++ new.filter (fun kv => !(old.any (fun kv2 => kv2.1 == kv.1)))

/-- `CustomLogger.update_hyperparams(hparams, metrics)`: merges the two
argument dicts into the stored ones, verbatim. -/
def update_hyperparams (hparams metrics new_hparams new_metrics : List (String × CfgValue)) :
    List (String × CfgValue) × List (String × CfgValue) :=
  (dictUpdate hparams new_hparams, dictUpdate metrics new_metrics)

/-- Every stored value is a string. -/
def allStrings (l : List (String × CfgValue)) : Bool :=
  l.all (fun kv => isStr kv.2)

/-! ## Run-directory versioning (`CustomLogger.folder_structure`)

The filesystem state relevant to `folder_structure` is the set of indices
`i` for which `<baseDir>/run<i>` exists; we model it as a `List Nat`.
The Python code starts from candidate `run0` and walks upward while the
candidate exists (`while os.path.exists(new_save_dir)`), then creates the
first free directory.  The unbounded `while` loop is rendered with a fuel
that provably suffices (`listMax fs + 2` candidates always contain a free
index). -/

def findFree (ex : Nat → Bool) : Nat → Nat → Nat
  | 0, cand => cand
  | fuel + 1, cand => if ex cand then findFree ex fuel (cand + 1) else cand

def listMax (fs : List Nat) : Nat := fs.foldr max 0

/-- `CustomLogger.folder_structure`: returns the chosen run index and the
filesystem after `os.makedirs` created the new run directory. -/
def folder_structure (fs : List Nat) : Nat × List Nat :=
  let idx := findFree (fun n => fs.contains n) (listMax fs + 2) 0
  (idx, idx :: fs)

/-! ## The trainer (`trainers/base.py`) -/

/-- The `lr_step` constructor argument: `"epoch"`, `None`, or an integer
step interval. -/
inductive LrStep where
  | epoch
  | none
  | every (n : Nat)
deriving Repr, DecidableEq

/-- The interval of a step-wise `lr_step` is nonzero (otherwise the
`global_step % lr_step` in `fit` raises `ZeroDivisionError`). -/
def lrsOk : LrStep → Bool
  | LrStep.every n => n != 0
  | _ => true

/-- The constructor/`fit` parameters that drive the loop's control flow. -/
structure FitCfg where
  accumulate_grad_batches : Nat
  lr_step : LrStep
  hasScheduler : Bool
  max_steps : Nat
  validation_every_n_steps : Nat
  save_every_n_steps : Nat
deriving Repr, DecidableEq

/-- Observable effects of one `training_step` call.  `grad` records, by the
global step at which each `loss.backward()` ran, which batch gradients sit
in the parameter gradient buffers when the call ends. -/
structure StepEffects where
  clipped : Bool
  updated : Bool
  grad : List Nat
deriving Repr, DecidableEq

/-- `BaseTrainer.training_step(batch, batch_idx)`:
`self.step` computes the loss; `opt.zero_grad()` empties the gradient
buffers; `loss.backward()` adds the current batch's gradient; then, iff
`global_step % accumulate_grad_batches == 0`, the gradients are clipped and
`opt.step()` fires, consuming the buffered gradient.  A zero accumulation
factor raises `ZeroDivisionError` (`Option.none`). -/
def training_step (accumulate_grad_batches global_step : Nat) : Option StepEffects :=
  let grad : List Nat := []
  let grad := grad ++ [global_step]
  if accumulate_grad_batches = 0 then Option.none
  else if global_step % accumulate_grad_batches = 0 then
    Option.some { clipped := true, updated := true, grad := grad }
  else
    Option.some { clipped := false, updated := false, grad := grad }

/-- The mutable state threaded through `BaseTrainer.fit`, together with the
trace of observable calls made so far.  `updates` records, for every
`opt.step()`, the global step at which it fired and the gradient buffer
contents it consumed. -/
structure LoopState where
  global_step : Nat
  stop : Bool
  errored : Bool
  attrErrored : Bool
  epochsStarted : Nat
  clips : Nat
  updates : List (Nat × List Nat)
  saves : List Nat
  vals : List Nat
  schedSteps : Nat
deriving Repr, DecidableEq

def initState : LoopState :=
  { global_step := 0, stop := false, errored := false, attrErrored := false,
    epochsStarted := 0, clips := 0, updates := [], saves := [], vals := [],
    schedSteps := 0 }

/-- Scheduler advances contributed by the step-interval branch of `fit` at
(already incremented) global step `g`. -/
def schedInc (cfg : FitCfg) (g : Nat) : Nat :=
  match cfg.lr_step with
  | LrStep.every n => if g % n = 0 ∧ cfg.hasScheduler then 1 else 0
  | _ => 0

/-- Tail of the per-batch loop body of `fit`, after the scheduler branch:
the mid-epoch stop check (`break` skips the remaining checks), the
checkpoint save check, and the validation check.  The `= 0` guards model
`ZeroDivisionError` on a zero modulus. -/
def stepChecks (cfg : FitCfg) (batch_idx : Nat) (s : LoopState) : LoopState :=
  if s.global_step > cfg.max_steps then { s with stop := true }
  else if cfg.save_every_n_steps = 0 then { s with errored := true }
  else
    let s := if s.global_step % cfg.save_every_n_steps = 0 then
      { s with saves := s.saves ++ [s.global_step] } else s
    if cfg.validation_every_n_steps = 0 then { s with errored := true }
    else if batch_idx % cfg.validation_every_n_steps = 0 then
      { s with vals := s.vals ++ [batch_idx] }
    else s

/-- One iteration of the inner batch loop of `fit`: `training_step`, the
global-step increment, the step-interval scheduler branch, then
`stepChecks`.  The scheduler branch follows the Python `and` chain's
evaluation order: `lr_step not in ("epoch", None)` first, then
`global_step % lr_step` (raising `ZeroDivisionError` on a zero interval),
then `self.lr_scheduler is not None` — reading an attribute that
`__init__` never set when the trainer was constructed without a scheduler,
which raises `AttributeError` (`attrErrored`). -/
def batchBody (cfg : FitCfg) (batch_idx : Nat) (s : LoopState) : LoopState :=
  match training_step cfg.accumulate_grad_batches s.global_step with
  | Option.none => { s with errored := true }
  | Option.some eff =>
    let s := { s with
      clips := s.clips + (if eff.clipped then 1 else 0),
      updates := s.updates ++ (if eff.updated then [(s.global_step, eff.grad)] else []) }
    let s := { s with global_step := s.global_step + 1 }
    match cfg.lr_step with
    | LrStep.every n =>
      if n = 0 then { s with errored := true }
      else if s.global_step % n = 0 then
        if cfg.hasScheduler then
          stepChecks cfg batch_idx { s with schedSteps := s.schedSteps + 1 }
        else { s with attrErrored := true }
      else stepChecks cfg batch_idx s
    | _ => stepChecks cfg batch_idx s

/-- The inner `for batch_idx, batch in enumerate(train_dataloader)` loop of
`fit`, over `remaining` further batches starting at `batch_idx`.  A raised
exception or a `break` ends the loop. -/
def runBatches (cfg : FitCfg) : Nat → Nat → LoopState → LoopState
  | 0, _, s => s
  | remaining + 1, batch_idx, s =>
    let s1 := batchBody cfg batch_idx s
    if s1.errored || s1.attrErrored || s1.stop then s1
    else runBatches cfg remaining (batch_idx + 1) s1

/-- The epoch-granularity scheduler line at the end of each epoch:
`if self.lr_step == "epoch" and self.lr_scheduler is not None:
self.lr_scheduler.step()`.  When the granularity is epoch-based, the
`self.lr_scheduler` attribute is read; for a trainer constructed without a
scheduler the attribute is unset and the read raises `AttributeError`
(`attrErrored`). -/
def epochSched (cfg : FitCfg) (s1 : LoopState) : LoopState :=
  if cfg.lr_step = LrStep.epoch then
    (if cfg.hasScheduler then { s1 with schedSteps := s1.schedSteps + 1 }
     else { s1 with attrErrored := true })
  else s1

/-- The outer `for epoch in range(max_epochs)` loop of `fit`.  Entering an
epoch prints the epoch banner (`epochsStarted`); after the inner loop the
epoch-granularity scheduler branch runs (also when the inner loop was left
by `break`), and only then `if stop: break`.  An uncaught exception — from
inside the inner loop or from the scheduler line itself — propagates past
everything. -/
def runEpochs (cfg : FitCfg) (nBatches : Nat) : Nat → LoopState → LoopState
  | 0, s => s
  | remaining + 1, s =>
    let s0 := { s with epochsStarted := s.epochsStarted + 1 }
    let s1 := runBatches cfg nBatches 0 s0
    if s1.errored || s1.attrErrored then s1
    else
      let s2 := epochSched cfg s1
      if s2.attrErrored then s2
      else if s2.stop then s2 else runEpochs cfg nBatches remaining s2

/-- `BaseTrainer.fit(max_epochs, max_steps, validation_every_n_steps,
save_every_n_steps, datamodule)` where the training dataloader yields
`nBatches` batches per epoch.  `global_step` is reset to zero on entry. -/
def fit (cfg : FitCfg) (max_epochs nBatches : Nat) : LoopState :=
  runEpochs cfg nBatches max_epochs initState

/-! ## Logger lemmas -/

theorem findFree_spec (ex : Nat → Bool) :
    ∀ (fuel cand : Nat), (∃ j, j < fuel ∧ ex (cand + j) = false) →
      ex (findFree ex fuel cand) = false ∧
      cand ≤ findFree ex fuel cand ∧
      ∀ m, cand ≤ m → m < findFree ex fuel cand → ex m = true := by
  intro fuel
  induction fuel with
  | zero =>
    rintro cand ⟨j, hj, _⟩
    omega
  | succ fuel ih =>
    rintro cand ⟨j, hj, hex⟩
    by_cases h : ex cand = true
    · have hj0 : j ≠ 0 := by
        intro h0
        rw [h0, Nat.add_zero] at hex
        rw [hex] at h
        exact absurd h (by simp)
      have hrec := ih (cand + 1)
        ⟨j - 1, by omega, by rw [show cand + 1 + (j - 1) = cand + j by omega]; exact hex⟩
      obtain ⟨h1, h2, h3⟩ := hrec
      simp only [findFree, h, if_true]
      refine ⟨h1, by omega, ?_⟩
      intro m hm1 hm2
      rcases Nat.eq_or_lt_of_le hm1 with rfl | hlt
      · exact h
      · exact h3 m (by omega) hm2
    · have h' : ex cand = false := by simpa using h
      have hval : findFree ex (fuel + 1) cand = cand := by
        simp [findFree, h']
      rw [hval]
      exact ⟨h', Nat.le_refl _, fun m hm1 hm2 => absurd hm2 (by omega)⟩

theorem mem_le_listMax : ∀ (fs : List Nat) (x : Nat), x ∈ fs → x ≤ listMax fs := by
  intro fs
  induction fs with
  | nil => simp
  | cons a t ih =>
    intro x hx
    rcases List.mem_cons.mp hx with rfl | hx
    · exact Nat.le_max_left _ _
    · exact Nat.le_trans (ih x hx) (Nat.le_max_right _ _)

theorem allStrings_init_hparams (cfg : List (String × CfgValue)) :
    allStrings (init_hparams cfg) = true := by
  simp only [allStrings, init_hparams, List.all_eq_true]
  intro kv hkv
  obtain ⟨kv0, _, rfl⟩ := List.mem_map.mp hkv
  by_cases h : isStr kv0.2 = true
  · rw [if_pos h]
    exact h
  · rw [if_neg h]
    rfl

theorem lookupVal_isStr (k : String) (l : List (String × CfgValue)) (v : CfgValue)
    (hall : allStrings l = true) (hfind : lookupVal k l = Option.some v) :
    isStr v = true := by
  simp only [lookupVal, Option.map_eq_some'] at hfind
  obtain ⟨kv, hkv, rfl⟩ := hfind
  have hmem := List.mem_of_find?_eq_some hkv
  exact (List.all_eq_true.mp hall) kv hmem

theorem allStrings_dictUpdate (old new : List (String × CfgValue))
    (h1 : allStrings old = true) (h2 : allStrings new = true) :
    allStrings (dictUpdate old new) = true := by
  simp only [allStrings, dictUpdate, List.all_eq_true, List.mem_append] at *
  intro kv hkv
  rcases hkv with hkv | hkv
  · obtain ⟨kv0, hkv0, rfl⟩ := List.mem_map.mp hkv
    cases hfind : lookupVal kv0.1 new with
    | none => simp only [hfind]; exact h1 kv0 hkv0
    | some v =>
      simp only [hfind]
      exact lookupVal_isStr kv0.1 new v (List.all_eq_true.mpr h2) hfind
  · exact h2 kv (List.mem_of_mem_filter hkv)

/-! ## Trainer lemmas

The fit loop walks the global step through a contiguous range; the trace
lists it produces are images of such ranges.  `stepsFrom g k` is the list
`[g, g+1, …, g+k-1]`. -/

def stepsFrom : Nat → Nat → List Nat
  | _, 0 => []
  | g, k + 1 => g :: stepsFrom (g + 1) k

/-- The optimizer updates fired while the global step ran over
`stepsFrom g k`: one per step divisible by the accumulation factor, each
consuming exactly the current batch's gradient. -/
def updatesFrom (accum g k : Nat) : List (Nat × List Nat) :=
  ((stepsFrom g k).filter (fun x => x % accum = 0)).map (fun x => (x, [x]))

/-- The checkpoint saves recorded while the (already incremented) global
step ran over `stepsFrom g k`. -/
def savesFrom (save_n g k : Nat) : List Nat :=
  (stepsFrom g k).filter (fun x => x % save_n = 0)

theorem stepsFrom_append (k1 : Nat) :
    ∀ (g k2 : Nat), stepsFrom g (k1 + k2) = stepsFrom g k1 ++ stepsFrom (g + k1) k2 := by
  induction k1 with
  | zero => intro g k2; simp [stepsFrom]
  | succ k1 ih =>
    intro g k2
    have h : k1 + 1 + k2 = (k1 + k2) + 1 := by omega
    rw [h]
    show g :: stepsFrom (g + 1) (k1 + k2) = (g :: stepsFrom (g + 1) k1) ++ stepsFrom (g + (k1 + 1)) k2
    rw [ih (g + 1) k2, show g + 1 + k1 = g + (k1 + 1) by omega]
    simp

theorem mem_stepsFrom : ∀ (k g x : Nat), x ∈ stepsFrom g k ↔ (g ≤ x ∧ x < g + k) := by
  intro k
  induction k with
  | zero => intro g x; simp [stepsFrom]
  | succ k ih =>
    intro g x
    simp only [stepsFrom, List.mem_cons, ih (g + 1) x]
    omega

theorem updatesFrom_succ (accum g k : Nat) :
    updatesFrom accum g (k + 1) =
      (if g % accum = 0 then [(g, [g])] else []) ++ updatesFrom accum (g + 1) k := by
  simp only [updatesFrom, stepsFrom, List.filter_cons]
  by_cases h : g % accum = 0
  · simp [h]
  · simp [h]

theorem updatesFrom_append (accum g k1 k2 : Nat) :
    updatesFrom accum g (k1 + k2) =
      updatesFrom accum g k1 ++ updatesFrom accum (g + k1) k2 := by
  simp [updatesFrom, stepsFrom_append k1 g k2, List.filter_append]

theorem savesFrom_succ (save_n g k : Nat) :
    savesFrom save_n g (k + 1) =
      (if g % save_n = 0 then [g] else []) ++ savesFrom save_n (g + 1) k := by
  simp only [savesFrom, stepsFrom, List.filter_cons]
  by_cases h : g % save_n = 0
  · simp [h]
  · simp [h]

theorem savesFrom_append (save_n g k1 k2 : Nat) :
    savesFrom save_n g (k1 + k2) =
      savesFrom save_n g k1 ++ savesFrom save_n (g + k1) k2 := by
  simp [savesFrom, stepsFrom_append k1 g k2, List.filter_append]

theorem mem_savesFrom (save_n g k x : Nat) :
    x ∈ savesFrom save_n g k ↔ (g ≤ x ∧ x < g + k ∧ x % save_n = 0) := by
  simp only [savesFrom, List.mem_filter, mem_stepsFrom, decide_eq_true_eq]
  omega

/-- `training_step` with a nonzero accumulation factor: the gate is exactly
`global_step % accumulate_grad_batches == 0`, and the gradient buffer holds
exactly the current batch's gradient. -/
theorem training_step_pos (accum g : Nat) (ha : accum ≠ 0) :
    training_step accum g =
      Option.some { clipped := decide (g % accum = 0), updated := decide (g % accum = 0),
                    grad := [g] } := by
  simp only [training_step, List.nil_append, if_neg ha]
  by_cases h : g % accum = 0
  · simp [h]
  · simp [h]

theorem training_step_zero (g : Nat) : training_step 0 g = Option.none := by
  simp [training_step]

/-- The step-interval branch raises no error when the (incremented)
global step is `g`: a nonzero interval whose scheduler attribute, if the
modulus hits, is actually set. -/
def noAttr (cfg : FitCfg) (g : Nat) : Prop :=
  match cfg.lr_step with
  | LrStep.every n => n ≠ 0 ∧ (g % n = 0 → cfg.hasScheduler = true)
  | _ => True

/-- A valid interval together with a scheduler present for every interval
granularity gives `noAttr` at every step. -/
theorem noAttr_of (cfg : FitCfg) (hl : lrsOk cfg.lr_step = true)
    (hevery : ∀ n, cfg.lr_step = LrStep.every n → cfg.hasScheduler = true) (g : Nat) :
    noAttr cfg g := by
  cases hlr : cfg.lr_step with
  | every n =>
    rw [hlr] at hl
    simp only [noAttr, hlr]
    exact ⟨by simpa [lrsOk] using hl, fun _ => hevery n hlr⟩
  | epoch => simp [noAttr, hlr]
  | none => simp [noAttr, hlr]

/-- `batchBody` when the freshly incremented global step exceeds
`max_steps` (and the scheduler branch raises nothing): the step and its
(possible) update and scheduler advance have happened, then `break` fires
before the save and validation checks. -/
theorem batchBody_stop (cfg : FitCfg) (batch_idx : Nat) (s : LoopState)
    (ha : cfg.accumulate_grad_batches ≠ 0) (hna : noAttr cfg (s.global_step + 1))
    (hstop : cfg.max_steps < s.global_step + 1) :
    batchBody cfg batch_idx s =
      { global_step := s.global_step + 1, stop := true, errored := s.errored,
        attrErrored := s.attrErrored, epochsStarted := s.epochsStarted,
        clips := s.clips + (if s.global_step % cfg.accumulate_grad_batches = 0 then 1 else 0),
        updates := s.updates ++
          (if s.global_step % cfg.accumulate_grad_batches = 0 then
            [(s.global_step, [s.global_step])] else []),
        saves := s.saves, vals := s.vals,
        schedSteps := s.schedSteps + schedInc cfg (s.global_step + 1) } := by
  rw [batchBody, training_step_pos _ _ ha]
  by_cases hg : s.global_step % cfg.accumulate_grad_batches = 0 <;>
  · cases hlr : cfg.lr_step with
    | every n =>
      have hna' : n ≠ 0 ∧ ((s.global_step + 1) % n = 0 → cfg.hasScheduler = true) := by
        simpa [noAttr, hlr] using hna
      by_cases hm : (s.global_step + 1) % n = 0
      · have hsc : cfg.hasScheduler = true := hna'.2 hm
        simp [hg, hna'.1, hm, hsc, stepChecks, schedInc, hlr, if_pos hstop]
      · simp [hg, hna'.1, hm, stepChecks, schedInc, hlr, if_pos hstop]
    | epoch => simp [hg, stepChecks, schedInc, hlr, if_pos hstop]
    | none => simp [hg, stepChecks, schedInc, hlr, if_pos hstop]

/-- `batchBody` when the step-interval modulus hits but the scheduler
attribute is unset: the step and its (possible) optimizer update have
happened, then the attribute read raises `AttributeError`, skipping the
stop/save/validation checks. -/
theorem batchBody_attr (cfg : FitCfg) (batch_idx : Nat) (s : LoopState) (n : Nat)
    (ha : cfg.accumulate_grad_batches ≠ 0) (hlr : cfg.lr_step = LrStep.every n)
    (hn : n ≠ 0) (hm : (s.global_step + 1) % n = 0) (hsc : cfg.hasScheduler = false) :
    batchBody cfg batch_idx s =
      { global_step := s.global_step + 1, stop := s.stop, errored := s.errored,
        attrErrored := true, epochsStarted := s.epochsStarted,
        clips := s.clips + (if s.global_step % cfg.accumulate_grad_batches = 0 then 1 else 0),
        updates := s.updates ++
          (if s.global_step % cfg.accumulate_grad_batches = 0 then
            [(s.global_step, [s.global_step])] else []),
        saves := s.saves, vals := s.vals, schedSteps := s.schedSteps } := by
  rw [batchBody, training_step_pos _ _ ha]
  by_cases hg : s.global_step % cfg.accumulate_grad_batches = 0 <;>
    simp [hg, hlr, hn, hm, hsc]

/-- `batchBody` when the incremented global step is still within
`max_steps`: the full body runs, including the save and validation
checks. -/
theorem batchBody_cont (cfg : FitCfg) (batch_idx : Nat) (s : LoopState)
    (ha : cfg.accumulate_grad_batches ≠ 0) (hna : noAttr cfg (s.global_step + 1))
    (hs : cfg.save_every_n_steps ≠ 0) (hv : cfg.validation_every_n_steps ≠ 0)
    (hcont : ¬ cfg.max_steps < s.global_step + 1) :
    batchBody cfg batch_idx s =
      { global_step := s.global_step + 1, stop := s.stop, errored := s.errored,
        attrErrored := s.attrErrored, epochsStarted := s.epochsStarted,
        clips := s.clips + (if s.global_step % cfg.accumulate_grad_batches = 0 then 1 else 0),
        updates := s.updates ++
          (if s.global_step % cfg.accumulate_grad_batches = 0 then
            [(s.global_step, [s.global_step])] else []),
        saves := s.saves ++
          (if (s.global_step + 1) % cfg.save_every_n_steps = 0 then [s.global_step + 1] else []),
        vals := s.vals ++
          (if batch_idx % cfg.validation_every_n_steps = 0 then [batch_idx] else []),
        schedSteps := s.schedSteps + schedInc cfg (s.global_step + 1) } := by
  rw [batchBody, training_step_pos _ _ ha]
  by_cases hg : s.global_step % cfg.accumulate_grad_batches = 0 <;>
  · cases hlr : cfg.lr_step with
    | every n =>
      have hna' : n ≠ 0 ∧ ((s.global_step + 1) % n = 0 → cfg.hasScheduler = true) := by
        simpa [noAttr, hlr] using hna
      by_cases hm : (s.global_step + 1) % n = 0
      · have hsc : cfg.hasScheduler = true := hna'.2 hm
        by_cases hsv : (s.global_step + 1) % cfg.save_every_n_steps = 0 <;>
        by_cases hvl : batch_idx % cfg.validation_every_n_steps = 0 <;>
          simp [hg, hna'.1, hm, hsc, hsv, hvl, stepChecks, schedInc, hlr, if_neg hcont, hs, hv]
      · by_cases hsv : (s.global_step + 1) % cfg.save_every_n_steps = 0 <;>
        by_cases hvl : batch_idx % cfg.validation_every_n_steps = 0 <;>
          simp [hg, hna'.1, hm, hsv, hvl, stepChecks, schedInc, hlr, if_neg hcont, hs, hv]
    | epoch =>
      by_cases hsv : (s.global_step + 1) % cfg.save_every_n_steps = 0 <;>
      by_cases hvl : batch_idx % cfg.validation_every_n_steps = 0 <;>
        simp [hg, hsv, hvl, stepChecks, schedInc, hlr, if_neg hcont, hs, hv]
    | none =>
      by_cases hsv : (s.global_step + 1) % cfg.save_every_n_steps = 0 <;>
      by_cases hvl : batch_idx % cfg.validation_every_n_steps = 0 <;>
        simp [hg, hsv, hvl, stepChecks, schedInc, hlr, if_neg hcont, hs, hv]

/-- The step-interval branch never advances the scheduler when the
configured granularity is epoch-based or absent. -/
theorem schedInc_eq_zero (cfg : FitCfg) (g : Nat)
    (h : cfg.lr_step = LrStep.epoch ∨ cfg.lr_step = LrStep.none) :
    schedInc cfg g = 0 := by
  rcases h with h | h <;> simp [schedInc, h]

theorem updatesFrom_zero (accum g : Nat) : updatesFrom accum g 0 = [] := rfl

theorem savesFrom_zero (save_n g : Nat) : savesFrom save_n g 0 = [] := rfl

theorem updatesFrom_one (accum g : Nat) :
    updatesFrom accum g 1 = if g % accum = 0 then [(g, [g])] else [] := by
  rw [show (1 : Nat) = 0 + 1 from rfl, updatesFrom_succ]
  by_cases hg : g % accum = 0 <;> simp [hg, updatesFrom_zero]

/-- Invariant of the inner batch loop: starting not-stopped, not-errored,
with the global step within `max_steps` and all moduli nonzero, the loop
executes `min remaining (max_steps + 1 - global_step)` training steps,
stops early exactly when `max_steps` would be exceeded, never errors, and
produces exactly the update and save traces of the step range it walked
(the save check is skipped on the step that triggers the stop). -/
theorem runBatches_spec (cfg : FitCfg) (ha : cfg.accumulate_grad_batches ≠ 0)
    (hl : lrsOk cfg.lr_step = true)
    (hevery : ∀ n, cfg.lr_step = LrStep.every n → cfg.hasScheduler = true)
    (hs : cfg.save_every_n_steps ≠ 0) (hv : cfg.validation_every_n_steps ≠ 0) :
    ∀ (remaining batch_idx : Nat) (s : LoopState),
      s.stop = false → s.errored = false → s.attrErrored = false →
      s.global_step ≤ cfg.max_steps →
      (runBatches cfg remaining batch_idx s).global_step
          = s.global_step + min remaining (cfg.max_steps + 1 - s.global_step) ∧
      (runBatches cfg remaining batch_idx s).stop
          = decide (cfg.max_steps < s.global_step + remaining) ∧
      ((runBatches cfg remaining batch_idx s).errored = false ∧
        (runBatches cfg remaining batch_idx s).attrErrored = false) ∧
      (runBatches cfg remaining batch_idx s).epochsStarted = s.epochsStarted ∧
      (runBatches cfg remaining batch_idx s).updates
          = s.updates ++ updatesFrom cfg.accumulate_grad_batches s.global_step
              (min remaining (cfg.max_steps + 1 - s.global_step)) ∧
      (runBatches cfg remaining batch_idx s).saves
          = s.saves ++ savesFrom cfg.save_every_n_steps (s.global_step + 1)
              (min remaining (cfg.max_steps - s.global_step)) ∧
      ((cfg.lr_step = LrStep.epoch ∨ cfg.lr_step = LrStep.none) →
        (runBatches cfg remaining batch_idx s).schedSteps = s.schedSteps) := by
  intro remaining
  induction remaining with
  | zero =>
    intro batch_idx s hstop herr hattr hle
    have hr : runBatches cfg 0 batch_idx s = s := rfl
    rw [hr, Nat.zero_min, Nat.zero_min]
    refine ⟨by omega, ?_, ⟨herr, hattr⟩, rfl, by simp [updatesFrom_zero],
      by simp [savesFrom_zero], fun _ => rfl⟩
    · rw [hstop]
      symm
      rw [decide_eq_false_iff_not]
      omega
  | succ remaining ih =>
    intro batch_idx s hstop herr hattr hle
    have hna := noAttr_of cfg hl hevery (s.global_step + 1)
    by_cases hcase : cfg.max_steps < s.global_step + 1
    · -- the freshly incremented step exceeds max_steps: break fires
      have hbb := batchBody_stop cfg batch_idx s ha hna hcase
      have hrun : runBatches cfg (remaining + 1) batch_idx s = batchBody cfg batch_idx s := by
        have hcond : ((batchBody cfg batch_idx s).errored
            || (batchBody cfg batch_idx s).attrErrored
            || (batchBody cfg batch_idx s).stop) = true := by
          rw [hbb]
          simp
        simp only [runBatches, hcond, if_true]
      have hmin1 : min (remaining + 1) (cfg.max_steps + 1 - s.global_step) = 1 := by omega
      have hmin0 : min (remaining + 1) (cfg.max_steps - s.global_step) = 0 := by omega
      rw [hrun, hbb, hmin1, hmin0]
      refine ⟨rfl, ?_, ⟨herr, hattr⟩, rfl, ?_, by simp [savesFrom_zero], ?_⟩
      · show true = decide (cfg.max_steps < s.global_step + (remaining + 1))
        symm
        rw [decide_eq_true_eq]
        omega
      · show s.updates ++ _ = s.updates ++ updatesFrom cfg.accumulate_grad_batches s.global_step 1
        rw [updatesFrom_one]
      · intro hor
        simp [schedInc_eq_zero cfg _ hor]
    · -- still within max_steps: the body completes and the loop recurses
      have hbb := batchBody_cont cfg batch_idx s ha hna hs hv hcase
      have hgs : s.global_step + 1 ≤ cfg.max_steps := by omega
      have hrun : runBatches cfg (remaining + 1) batch_idx s
          = runBatches cfg remaining (batch_idx + 1) (batchBody cfg batch_idx s) := by
        have hcond : ((batchBody cfg batch_idx s).errored
            || (batchBody cfg batch_idx s).attrErrored
            || (batchBody cfg batch_idx s).stop) = false := by
          rw [hbb]
          simp [herr, hattr, hstop]
        simp only [runBatches, hcond, Bool.false_eq_true, if_false]
      obtain ⟨e1, e2, ⟨e3, e3a⟩, e4, e5, e6, e7⟩ := ih (batch_idx + 1) (batchBody cfg batch_idx s)
        (by rw [hbb]; exact hstop) (by rw [hbb]; exact herr) (by rw [hbb]; exact hattr)
        (by rw [hbb]; exact hgs)
      rw [hrun]
      refine ⟨?_, ?_, ⟨e3, e3a⟩, ?_, ?_, ?_, ?_⟩
      · rw [e1, hbb]
        simp only []
        try omega
      · rw [e2, hbb]
        simp only []
        rw [decide_eq_decide]
        omega
      · rw [e4, hbb]
      · rw [e5, hbb]
        simp only []
        have hk : min (remaining + 1) (cfg.max_steps + 1 - s.global_step)
            = min remaining (cfg.max_steps + 1 - (s.global_step + 1)) + 1 := by omega
        rw [hk, updatesFrom_succ]
        simp [List.append_assoc]
      · rw [e6, hbb]
        simp only []
        have hk : min (remaining + 1) (cfg.max_steps - s.global_step)
            = min remaining (cfg.max_steps - (s.global_step + 1)) + 1 := by omega
        rw [hk, savesFrom_succ]
        simp [List.append_assoc]
      · intro hor
        rw [e7 hor, hbb]
        simp only []
        simp [schedInc_eq_zero cfg _ hor]

/-- Unfolding of one epoch iteration of `runEpochs`. -/
theorem runEpochs_succ (cfg : FitCfg) (nBatches e : Nat) (s : LoopState) :
    runEpochs cfg nBatches (e + 1) s =
      (if (runBatches cfg nBatches 0 { s with epochsStarted := s.epochsStarted + 1 }).errored
          || (runBatches cfg nBatches 0
            { s with epochsStarted := s.epochsStarted + 1 }).attrErrored
       then runBatches cfg nBatches 0 { s with epochsStarted := s.epochsStarted + 1 }
       else
        if (epochSched cfg (runBatches cfg nBatches 0
              { s with epochsStarted := s.epochsStarted + 1 })).attrErrored
        then epochSched cfg (runBatches cfg nBatches 0
              { s with epochsStarted := s.epochsStarted + 1 })
        else
          if (epochSched cfg (runBatches cfg nBatches 0
                { s with epochsStarted := s.epochsStarted + 1 })).stop
          then epochSched cfg (runBatches cfg nBatches 0
                { s with epochsStarted := s.epochsStarted + 1 })
          else runEpochs cfg nBatches e (epochSched cfg (runBatches cfg nBatches 0
                { s with epochsStarted := s.epochsStarted + 1 }))) :=
  rfl

/-- Invariant of the whole fit loop: with valid moduli, the scheduler
attribute set whenever a non-`None` granularity would read it, at least
one batch per epoch, and the global step within `max_steps`, running `e`
further epochs executes `min (e * nBatches) (max_steps + 1 - global_step)`
training steps, enters `min e ((max_steps + nBatches - global_step) /
nBatches)` further epochs, never errors, produces exactly the update and
save traces of the contiguous step range it walks, and — when the
scheduler granularity is epoch-based and a scheduler is present — advances
the scheduler once per epoch entered (also for an epoch cut short by the
`max_steps` stop). -/
theorem runEpochs_spec (cfg : FitCfg) (ha : cfg.accumulate_grad_batches ≠ 0)
    (hl : lrsOk cfg.lr_step = true)
    (hevery : ∀ n, cfg.lr_step = LrStep.every n → cfg.hasScheduler = true)
    (hepoch : cfg.lr_step = LrStep.epoch → cfg.hasScheduler = true)
    (hs : cfg.save_every_n_steps ≠ 0)
    (hv : cfg.validation_every_n_steps ≠ 0) (nBatches : Nat) (hnB : 1 ≤ nBatches) :
    ∀ (e : Nat) (s : LoopState),
      s.stop = false → s.errored = false → s.attrErrored = false →
      s.global_step ≤ cfg.max_steps →
      (runEpochs cfg nBatches e s).global_step
          = s.global_step + min (e * nBatches) (cfg.max_steps + 1 - s.global_step) ∧
      ((runEpochs cfg nBatches e s).errored = false ∧
        (runEpochs cfg nBatches e s).attrErrored = false) ∧
      (runEpochs cfg nBatches e s).epochsStarted
          = s.epochsStarted + min e ((cfg.max_steps + nBatches - s.global_step) / nBatches) ∧
      (runEpochs cfg nBatches e s).updates
          = s.updates ++ updatesFrom cfg.accumulate_grad_batches s.global_step
              (min (e * nBatches) (cfg.max_steps + 1 - s.global_step)) ∧
      (runEpochs cfg nBatches e s).saves
          = s.saves ++ savesFrom cfg.save_every_n_steps (s.global_step + 1)
              (min (e * nBatches) (cfg.max_steps - s.global_step)) ∧
      (cfg.lr_step = LrStep.epoch ∧ cfg.hasScheduler = true →
        (runEpochs cfg nBatches e s).schedSteps
          = s.schedSteps + min e ((cfg.max_steps + nBatches - s.global_step) / nBatches)) := by
  intro e
  induction e with
  | zero =>
    intro s hstop herr hattr hle
    have hr : runEpochs cfg nBatches 0 s = s := rfl
    rw [hr, Nat.zero_mul, Nat.zero_min, Nat.zero_min]
    refine ⟨by omega, ⟨herr, hattr⟩, by simp, by simp [updatesFrom_zero],
      by simp [savesFrom_zero], fun _ => by simp⟩
  | succ e ih =>
    intro s hstop herr hattr hle
    have hnB0 : 0 < nBatches := hnB
    obtain ⟨b1, b2, ⟨b3, b3a⟩, b4, b5, b6, b7⟩ :=
      runBatches_spec cfg ha hl hevery hs hv nBatches 0
        { s with epochsStarted := s.epochsStarted + 1 } hstop herr hattr hle
    simp only [] at b1 b2 b3 b3a b4 b5 b6 b7
    rw [runEpochs_succ, b3, b3a]
    simp only [Bool.or_self, Bool.false_eq_true, if_false]
    set s2 := epochSched cfg
      (runBatches cfg nBatches 0 { s with epochsStarted := s.epochsStarted + 1 })
      with hs2def
    have h2gs : s2.global_step
        = s.global_step + min nBatches (cfg.max_steps + 1 - s.global_step) := by
      by_cases hed : cfg.lr_step = LrStep.epoch <;>
        simp [hs2def, epochSched, hed, hepoch, b1]
    have h2stop : s2.stop = decide (cfg.max_steps < s.global_step + nBatches) := by
      by_cases hed : cfg.lr_step = LrStep.epoch <;>
        simp [hs2def, epochSched, hed, hepoch, b2]
    have h2err : s2.errored = false := by
      by_cases hed : cfg.lr_step = LrStep.epoch <;>
        simp [hs2def, epochSched, hed, hepoch, b3]
    have h2attr : s2.attrErrored = false := by
      by_cases hed : cfg.lr_step = LrStep.epoch <;>
        simp [hs2def, epochSched, hed, hepoch, b3a]
    have h2ep : s2.epochsStarted = s.epochsStarted + 1 := by
      by_cases hed : cfg.lr_step = LrStep.epoch <;>
        simp [hs2def, epochSched, hed, hepoch, b4]
    have h2upd : s2.updates = s.updates ++ updatesFrom cfg.accumulate_grad_batches
        s.global_step (min nBatches (cfg.max_steps + 1 - s.global_step)) := by
      by_cases hed : cfg.lr_step = LrStep.epoch <;>
        simp [hs2def, epochSched, hed, hepoch, b5]
    have h2sav : s2.saves = s.saves ++ savesFrom cfg.save_every_n_steps
        (s.global_step + 1) (min nBatches (cfg.max_steps - s.global_step)) := by
      by_cases hed : cfg.lr_step = LrStep.epoch <;>
        simp [hs2def, epochSched, hed, hepoch, b6]
    have h2schedA : cfg.lr_step = LrStep.epoch ∧ cfg.hasScheduler = true →
        s2.schedSteps = s.schedSteps + 1 := by
      intro hes
      rw [hs2def, epochSched, if_pos hes.1, if_pos hes.2]
      simp [b7 (Or.inl hes.1)]
    rw [if_neg (by rw [h2attr]; simp)]
    by_cases hstp : cfg.max_steps < s.global_step + nBatches
    · -- the inner loop hit the stop: this epoch is the last one
      have h2stop' : s2.stop = true := by
        rw [h2stop, decide_eq_true_eq]
        exact hstp
      rw [if_pos h2stop']
      have hmul : nBatches ≤ (e + 1) * nBatches := Nat.le_mul_of_pos_left nBatches (Nat.succ_pos e)
      have hdiv : (cfg.max_steps + nBatches - s.global_step) / nBatches = 1 := by
        rw [show cfg.max_steps + nBatches - s.global_step
            = (cfg.max_steps - s.global_step) + nBatches from by omega,
          Nat.add_div_right _ hnB0, Nat.div_eq_of_lt (by omega)]
      refine ⟨?_, ⟨h2err, h2attr⟩, ?_, ?_, ?_, ?_⟩
      · rw [h2gs]
        omega
      · rw [h2ep, hdiv]
        omega
      · rw [h2upd, show min ((e + 1) * nBatches) (cfg.max_steps + 1 - s.global_step)
            = min nBatches (cfg.max_steps + 1 - s.global_step) from by omega]
      · rw [h2sav, show min ((e + 1) * nBatches) (cfg.max_steps - s.global_step)
            = min nBatches (cfg.max_steps - s.global_step) from by omega]
      · intro hes
        rw [h2schedA hes, hdiv]
        omega
    · -- no stop yet: the epoch completed all its batches and the loop recurses
      have h2stop' : s2.stop = false := by
        rw [h2stop, decide_eq_false_iff_not]
        exact hstp
      have hneg : ¬ (s2.stop = true) := by
        rw [h2stop']
        simp
      rw [if_neg hneg]
      have hminB : min nBatches (cfg.max_steps + 1 - s.global_step) = nBatches := by omega
      have hg2 : s2.global_step = s.global_step + nBatches := by rw [h2gs, hminB]
      have hle2 : s2.global_step ≤ cfg.max_steps := by omega
      obtain ⟨i1, ⟨i2, i2a⟩, i3, i4, i5, i6⟩ := ih s2 h2stop' h2err h2attr hle2
      have hmul : (e + 1) * nBatches = e * nBatches + nBatches := by ring
      refine ⟨?_, ⟨i2, i2a⟩, ?_, ?_, ?_, ?_⟩
      · rw [i1, hg2]
        omega
      · rw [i3, h2ep, hg2]
        rw [show cfg.max_steps + nBatches - (s.global_step + nBatches)
            = cfg.max_steps - s.global_step from by omega]
        rw [show cfg.max_steps + nBatches - s.global_step
            = (cfg.max_steps - s.global_step) + nBatches from by omega,
          Nat.add_div_right _ hnB0, Nat.succ_min_succ]
        omega
      · rw [i4, h2upd, hg2, hminB]
        rw [show min ((e + 1) * nBatches) (cfg.max_steps + 1 - s.global_step)
            = nBatches + min (e * nBatches) (cfg.max_steps + 1 - (s.global_step + nBatches))
            from by omega,
          updatesFrom_append, List.append_assoc]
      · have hminB' : min nBatches (cfg.max_steps - s.global_step) = nBatches := by omega
        rw [i5, h2sav, hg2, hminB']
        rw [show min ((e + 1) * nBatches) (cfg.max_steps - s.global_step)
            = nBatches + min (e * nBatches) (cfg.max_steps - (s.global_step + nBatches))
            from by omega,
          savesFrom_append,
          show s.global_step + 1 + nBatches = s.global_step + nBatches + 1 from by omega,
          List.append_assoc]
      · intro hes
        rw [i6 hes, h2schedA hes, hg2]
        rw [show cfg.max_steps + nBatches - (s.global_step + nBatches)
            = cfg.max_steps - s.global_step from by omega]
        rw [show cfg.max_steps + nBatches - s.global_step
            = (cfg.max_steps - s.global_step) + nBatches from by omega,
          Nat.add_div_right _ hnB0, Nat.succ_min_succ]
        omega

/-- A scheduler is present whenever the configured granularity would read
the scheduler attribute (`hsc` below); these are the configurations on
which `fit` raises no `AttributeError`. -/
theorem sched_consistent_every (cfg : FitCfg)
    (hsc : cfg.hasScheduler = true ∨ cfg.lr_step = LrStep.none) :
    ∀ n, cfg.lr_step = LrStep.every n → cfg.hasScheduler = true := by
  intro n hn
  rcases hsc with h | h
  · exact h
  · rw [hn] at h
    exact absurd h (by simp)

theorem sched_consistent_epoch (cfg : FitCfg)
    (hsc : cfg.hasScheduler = true ∨ cfg.lr_step = LrStep.none) :
    cfg.lr_step = LrStep.epoch → cfg.hasScheduler = true := by
  intro hn
  rcases hsc with h | h
  · exact h
  · rw [hn] at h
    exact absurd h (by simp)

/-- Consolidated description of a whole `fit` call with valid moduli, a
scheduler configuration that raises no `AttributeError`, and at least one
batch per epoch. -/
theorem fit_spec (cfg : FitCfg) (ha : cfg.accumulate_grad_batches ≠ 0)
    (hl : lrsOk cfg.lr_step = true)
    (hsc : cfg.hasScheduler = true ∨ cfg.lr_step = LrStep.none)
    (hs : cfg.save_every_n_steps ≠ 0)
    (hv : cfg.validation_every_n_steps ≠ 0) (max_epochs nBatches : Nat) (hnB : 1 ≤ nBatches) :
    (fit cfg max_epochs nBatches).global_step
        = min (max_epochs * nBatches) (cfg.max_steps + 1) ∧
    (fit cfg max_epochs nBatches).errored = false ∧
    (fit cfg max_epochs nBatches).epochsStarted
        = min max_epochs ((cfg.max_steps + nBatches) / nBatches) ∧
    (fit cfg max_epochs nBatches).updates
        = updatesFrom cfg.accumulate_grad_batches 0
            (min (max_epochs * nBatches) (cfg.max_steps + 1)) ∧
    (fit cfg max_epochs nBatches).saves
        = savesFrom cfg.save_every_n_steps 1 (min (max_epochs * nBatches) cfg.max_steps) ∧
    (cfg.lr_step = LrStep.epoch ∧ cfg.hasScheduler = true →
      (fit cfg max_epochs nBatches).schedSteps
        = min max_epochs ((cfg.max_steps + nBatches) / nBatches)) := by
  obtain ⟨e1, ⟨e2, e2a⟩, e3, e4, e5, e6⟩ :=
    runEpochs_spec cfg ha hl (sched_consistent_every cfg hsc) (sched_consistent_epoch cfg hsc)
      hs hv nBatches hnB max_epochs initState rfl rfl rfl (Nat.zero_le _)
  rw [show fit cfg max_epochs nBatches = runEpochs cfg nBatches max_epochs initState from rfl]
  simp only [initState, Nat.sub_zero, Nat.zero_add, Nat.add_zero, List.nil_append]
    at e1 e2 e2a e3 e4 e5 e6 ⊢
  exact ⟨e1, e2, e3, e4, e5, e6⟩

/-- `batchBody` with a zero accumulation factor: `training_step` raises
`ZeroDivisionError` at once. -/
theorem batchBody_accum_zero (cfg : FitCfg) (batch_idx : Nat) (s : LoopState)
    (h : cfg.accumulate_grad_batches = 0) :
    batchBody cfg batch_idx s = { s with errored := true } := by
  simp [batchBody, h, training_step]

/-- `batchBody` with a zero `save_every_n_steps`, reached (no stop yet):
the save check raises `ZeroDivisionError`. -/
theorem batchBody_save_zero (cfg : FitCfg) (batch_idx : Nat) (s : LoopState)
    (ha : cfg.accumulate_grad_batches ≠ 0) (hna : noAttr cfg (s.global_step + 1))
    (hns : ¬ cfg.max_steps < s.global_step + 1) (h : cfg.save_every_n_steps = 0) :
    (batchBody cfg batch_idx s).errored = true := by
  rw [batchBody, training_step_pos _ _ ha]
  by_cases hg : s.global_step % cfg.accumulate_grad_batches = 0 <;>
  · cases hlr : cfg.lr_step with
    | every n =>
      have hna' : n ≠ 0 ∧ ((s.global_step + 1) % n = 0 → cfg.hasScheduler = true) := by
        simpa [noAttr, hlr] using hna
      by_cases hm : (s.global_step + 1) % n = 0
      · have hsc : cfg.hasScheduler = true := hna'.2 hm
        simp [hg, hna'.1, hm, hsc, stepChecks, hns, h]
      · simp [hg, hna'.1, hm, stepChecks, hns, h]
    | epoch => simp [hg, stepChecks, hns, h]
    | none => simp [hg, stepChecks, hns, h]

/-- `batchBody` with a zero `validation_every_n_steps`, reached (no stop,
save modulus nonzero): the validation check raises `ZeroDivisionError`. -/
theorem batchBody_val_zero (cfg : FitCfg) (batch_idx : Nat) (s : LoopState)
    (ha : cfg.accumulate_grad_batches ≠ 0) (hna : noAttr cfg (s.global_step + 1))
    (hns : ¬ cfg.max_steps < s.global_step + 1) (hsv : cfg.save_every_n_steps ≠ 0)
    (h : cfg.validation_every_n_steps = 0) :
    (batchBody cfg batch_idx s).errored = true := by
  rw [batchBody, training_step_pos _ _ ha]
  by_cases hg : s.global_step % cfg.accumulate_grad_batches = 0 <;>
  · cases hlr : cfg.lr_step with
    | every n =>
      have hna' : n ≠ 0 ∧ ((s.global_step + 1) % n = 0 → cfg.hasScheduler = true) := by
        simpa [noAttr, hlr] using hna
      by_cases hm2 : (s.global_step + 1) % n = 0
      · have hsc : cfg.hasScheduler = true := hna'.2 hm2
        by_cases hm : (s.global_step + 1) % cfg.save_every_n_steps = 0 <;>
          simp [hg, hna'.1, hm2, hsc, hm, stepChecks, hns, hsv, h]
      · by_cases hm : (s.global_step + 1) % cfg.save_every_n_steps = 0 <;>
          simp [hg, hna'.1, hm2, hm, stepChecks, hns, hsv, h]
    | epoch =>
      by_cases hm : (s.global_step + 1) % cfg.save_every_n_steps = 0 <;>
        simp [hg, hm, stepChecks, hns, hsv, h]
    | none =>
      by_cases hm : (s.global_step + 1) % cfg.save_every_n_steps = 0 <;>
        simp [hg, hm, stepChecks, hns, hsv, h]

/-- A zero modulus among the three `%` divisors makes `fit` raise
`ZeroDivisionError` on the very first batch whenever the first batch
reaches the corresponding check (`max_steps ≥ 1` guarantees the save and
validation checks of the first batch are reached). -/
theorem fit_err_of_zero_divisor (cfg : FitCfg) (max_epochs nBatches : Nat)
    (hl : lrsOk cfg.lr_step = true)
    (hevery : ∀ n, cfg.lr_step = LrStep.every n → cfg.hasScheduler = true)
    (hms : 1 ≤ cfg.max_steps)
    (he : 1 ≤ max_epochs) (hnB : 1 ≤ nBatches)
    (hbad : cfg.accumulate_grad_batches = 0 ∨ cfg.save_every_n_steps = 0 ∨
      cfg.validation_every_n_steps = 0) :
    (fit cfg max_epochs nBatches).errored = true := by
  obtain ⟨E, rfl⟩ : ∃ E, max_epochs = E + 1 := ⟨max_epochs - 1, by omega⟩
  obtain ⟨M, rfl⟩ : ∃ M, nBatches = M + 1 := ⟨nBatches - 1, by omega⟩
  have hna := noAttr_of cfg hl hevery
    (({ initState with epochsStarted := initState.epochsStarted + 1 } : LoopState).global_step + 1)
  have hns : ¬ cfg.max_steps <
      ({ initState with epochsStarted := initState.epochsStarted + 1 } : LoopState).global_step
        + 1 := by
    simp [initState]
    omega
  have hb : (batchBody cfg 0
      { initState with epochsStarted := initState.epochsStarted + 1 }).errored = true := by
    rcases hbad with h | h | h
    · rw [batchBody_accum_zero cfg 0 _ h]
    · by_cases ha : cfg.accumulate_grad_batches = 0
      · rw [batchBody_accum_zero cfg 0 _ ha]
      · exact batchBody_save_zero cfg 0 _ ha hna hns h
    · by_cases ha : cfg.accumulate_grad_batches = 0
      · rw [batchBody_accum_zero cfg 0 _ ha]
      · by_cases hsv : cfg.save_every_n_steps = 0
        · exact batchBody_save_zero cfg 0 _ ha hna hns hsv
        · exact batchBody_val_zero cfg 0 _ ha hna hns hsv h
  have hrb : runBatches cfg (M + 1) 0 { initState with epochsStarted := initState.epochsStarted + 1 }
      = batchBody cfg 0 { initState with epochsStarted := initState.epochsStarted + 1 } := by
    have hcond : ((batchBody cfg 0
        { initState with epochsStarted := initState.epochsStarted + 1 }).errored
      || (batchBody cfg 0
        { initState with epochsStarted := initState.epochsStarted + 1 }).attrErrored
      || (batchBody cfg 0
        { initState with epochsStarted := initState.epochsStarted + 1 }).stop) = true := by
      rw [hb]
      simp
    simp only [runBatches, hcond, if_true]
  rw [show fit cfg (E + 1) (M + 1) = runEpochs cfg (M + 1) (E + 1) initState from rfl,
    runEpochs_succ, hrb]
  simp [hb]

/-- `stepChecks` never touches the update trace. -/
theorem stepChecks_updates (cfg : FitCfg) (batch_idx : Nat) (s : LoopState) :
    (stepChecks cfg batch_idx s).updates = s.updates := by
  rw [stepChecks]
  by_cases h1 : s.global_step > cfg.max_steps
  · simp [h1]
  · by_cases h2 : cfg.save_every_n_steps = 0
    · simp [h1, h2]
    · by_cases h3 : s.global_step % cfg.save_every_n_steps = 0 <;>
      by_cases h4 : cfg.validation_every_n_steps = 0 <;>
      by_cases h5 : batch_idx % cfg.validation_every_n_steps = 0 <;>
        simp [h1, h2, h3, h4, h5]

/-- In every branch — break, error, or normal continuation — `batchBody`
appends to the update trace exactly the (possible) update of the current
step. -/
theorem batchBody_updates_pos (cfg : FitCfg) (batch_idx : Nat) (s : LoopState)
    (ha : cfg.accumulate_grad_batches ≠ 0) :
    (batchBody cfg batch_idx s).updates =
      s.updates ++ (if s.global_step % cfg.accumulate_grad_batches = 0 then
        [(s.global_step, [s.global_step])] else []) := by
  rw [batchBody, training_step_pos _ _ ha]
  by_cases hg : s.global_step % cfg.accumulate_grad_batches = 0 <;>
  · cases hlr : cfg.lr_step with
    | every n =>
      by_cases hn : n = 0
      · simp [hg, hn]
      · by_cases hm : (s.global_step + 1) % n = 0
        · by_cases hsc : cfg.hasScheduler = true
          · simp [hg, hn, hm, hsc, stepChecks_updates]
          · have hsc' : cfg.hasScheduler = false := by simpa using hsc
            simp [hg, hn, hm, hsc', stepChecks_updates]
        · simp [hg, hn, hm, stepChecks_updates]
    | epoch => simp [hg, stepChecks_updates]
    | none => simp [hg, stepChecks_updates]

theorem batchBody_updates_extend (cfg : FitCfg) (batch_idx : Nat) (s : LoopState) :
    ∃ u, (batchBody cfg batch_idx s).updates = s.updates ++ u := by
  by_cases ha : cfg.accumulate_grad_batches = 0
  · exact ⟨[], by rw [batchBody_accum_zero cfg batch_idx s ha]; simp⟩
  · exact ⟨_, batchBody_updates_pos cfg batch_idx s ha⟩

theorem runBatches_updates_extend (cfg : FitCfg) :
    ∀ (remaining batch_idx : Nat) (s : LoopState),
      ∃ t, (runBatches cfg remaining batch_idx s).updates = s.updates ++ t := by
  intro remaining
  induction remaining with
  | zero => exact fun batch_idx s => ⟨[], by simp [runBatches]⟩
  | succ remaining ih =>
    intro batch_idx s
    obtain ⟨u, hu⟩ := batchBody_updates_extend cfg batch_idx s
    cases hgd : ((batchBody cfg batch_idx s).errored
        || (batchBody cfg batch_idx s).attrErrored || (batchBody cfg batch_idx s).stop) with
    | true =>
      exact ⟨u, by simp only [runBatches, hgd, if_true]; exact hu⟩
    | false =>
      obtain ⟨t, ht⟩ := ih (batch_idx + 1) (batchBody cfg batch_idx s)
      refine ⟨u ++ t, ?_⟩
      simp only [runBatches, hgd, Bool.false_eq_true, if_false]
      rw [ht, hu, List.append_assoc]

/-- The epoch-granularity scheduler line can only bump `schedSteps` or
raise `AttributeError`; every other field survives it. -/
theorem epochSched_fields (cfg : FitCfg) (s : LoopState) :
    (epochSched cfg s).global_step = s.global_step ∧
    (epochSched cfg s).stop = s.stop ∧
    (epochSched cfg s).errored = s.errored ∧
    (epochSched cfg s).epochsStarted = s.epochsStarted ∧
    (epochSched cfg s).updates = s.updates ∧
    (epochSched cfg s).saves = s.saves := by
  rw [epochSched]
  by_cases h1 : cfg.lr_step = LrStep.epoch
  · by_cases h2 : cfg.hasScheduler = true
    · simp [h1, h2]
    · have h2' : cfg.hasScheduler = false := by simpa using h2
      simp [h1, h2']
  · simp [h1]

theorem runEpochs_updates_extend (cfg : FitCfg) (nBatches : Nat) :
    ∀ (e : Nat) (s : LoopState),
      ∃ t, (runEpochs cfg nBatches e s).updates = s.updates ++ t := by
  intro e
  induction e with
  | zero => exact fun s => ⟨[], by simp [runEpochs]⟩
  | succ e ih =>
    intro s
    rw [runEpochs_succ]
    set S1 := runBatches cfg nBatches 0 { s with epochsStarted := s.epochsStarted + 1 }
      with hS1
    obtain ⟨t1, ht1⟩ := runBatches_updates_extend cfg nBatches 0
      { s with epochsStarted := s.epochsStarted + 1 }
    rw [← hS1] at ht1
    simp only [] at ht1
    obtain ⟨_, _, _, _, pu, _⟩ := epochSched_fields cfg S1
    by_cases c1 : (S1.errored || S1.attrErrored) = true
    · rw [if_pos c1]
      exact ⟨t1, ht1⟩
    · rw [if_neg c1]
      by_cases c2 : (epochSched cfg S1).attrErrored = true
      · rw [if_pos c2]
        exact ⟨t1, by rw [pu, ht1]⟩
      · rw [if_neg c2]
        by_cases c3 : (epochSched cfg S1).stop = true
        · rw [if_pos c3]
          exact ⟨t1, by rw [pu, ht1]⟩
        · rw [if_neg c3]
          obtain ⟨t2, ht2⟩ := ih (epochSched cfg S1)
          exact ⟨t1 ++ t2, by rw [ht2, pu, ht1, List.append_assoc]⟩

/-- Every entry the update trace ever receives consumes exactly its own
step's gradient; `batchBody` preserves this invariant. -/
theorem batchBody_updates_inv (cfg : FitCfg) (batch_idx : Nat) (s : LoopState)
    (h : ∀ u ∈ s.updates, u.2 = [u.1]) :
    ∀ u ∈ (batchBody cfg batch_idx s).updates, u.2 = [u.1] := by
  by_cases ha : cfg.accumulate_grad_batches = 0
  · rw [batchBody_accum_zero cfg batch_idx s ha]
    exact h
  · rw [batchBody_updates_pos cfg batch_idx s ha]
    intro u hu
    rcases List.mem_append.mp hu with hu | hu
    · exact h u hu
    · by_cases hg : s.global_step % cfg.accumulate_grad_batches = 0
      · rw [if_pos hg, List.mem_singleton] at hu
        subst hu
        rfl
      · rw [if_neg hg] at hu
        exact absurd hu (List.not_mem_nil u)

theorem runBatches_updates_inv (cfg : FitCfg) :
    ∀ (remaining batch_idx : Nat) (s : LoopState),
      (∀ u ∈ s.updates, u.2 = [u.1]) →
      ∀ u ∈ (runBatches cfg remaining batch_idx s).updates, u.2 = [u.1] := by
  intro remaining
  induction remaining with
  | zero => exact fun batch_idx s h => h
  | succ remaining ih =>
    intro batch_idx s h
    cases hgd : ((batchBody cfg batch_idx s).errored
        || (batchBody cfg batch_idx s).attrErrored || (batchBody cfg batch_idx s).stop) with
    | true =>
      simp only [runBatches, hgd, if_true]
      exact batchBody_updates_inv cfg batch_idx s h
    | false =>
      simp only [runBatches, hgd, Bool.false_eq_true, if_false]
      exact ih (batch_idx + 1) _ (batchBody_updates_inv cfg batch_idx s h)

theorem runEpochs_updates_inv (cfg : FitCfg) (nBatches : Nat) :
    ∀ (e : Nat) (s : LoopState),
      (∀ u ∈ s.updates, u.2 = [u.1]) →
      ∀ u ∈ (runEpochs cfg nBatches e s).updates, u.2 = [u.1] := by
  intro e
  induction e with
  | zero => exact fun s h => h
  | succ e ih =>
    intro s h
    rw [runEpochs_succ]
    set S1 := runBatches cfg nBatches 0 { s with epochsStarted := s.epochsStarted + 1 }
      with hS1
    have h1 : ∀ u ∈ S1.updates, u.2 = [u.1] := by
      rw [hS1]
      exact runBatches_updates_inv cfg nBatches 0 _ h
    obtain ⟨_, _, _, _, pu, _⟩ := epochSched_fields cfg S1
    have h2 : ∀ u ∈ (epochSched cfg S1).updates, u.2 = [u.1] := by
      rw [pu]
      exact h1
    by_cases c1 : (S1.errored || S1.attrErrored) = true
    · rw [if_pos c1]
      exact h1
    · rw [if_neg c1]
      by_cases c2 : (epochSched cfg S1).attrErrored = true
      · rw [if_pos c2]
        exact h2
      · rw [if_neg c2]
        by_cases c3 : (epochSched cfg S1).stop = true
        · rw [if_pos c3]
          exact h2
        · rw [if_neg c3]
          exact ih _ h2

/-- In every configuration — also the schedulerless ones that later raise
`AttributeError` — each optimizer update of a fit call consumes exactly
its own step's gradient. -/
theorem fit_updates_inv (cfg : FitCfg) (max_epochs nBatches : Nat) :
    ∀ u ∈ (fit cfg max_epochs nBatches).updates, u.2 = [u.1] :=
  runEpochs_updates_inv cfg nBatches max_epochs initState
    (fun u hu => absurd hu (List.not_mem_nil u))

theorem updates_map_self :
    ∀ l : List (Nat × List Nat), (∀ u ∈ l, u.2 = [u.1]) →
      l.map (fun u => (u.1, [u.1])) = l := by
  intro l
  induction l with
  | nil => intro _; rfl
  | cons a t ih =>
    intro h
    simp only [List.map_cons]
    rw [ih (fun u hu => h u (List.mem_cons_of_mem a hu))]
    have ha := h a (List.mem_cons_self a t)
    rw [← ha, Prod.mk.eta]

/-- `runBatches` halts on the very first batch when its body breaks or
raises. -/
theorem runBatches_halt_first (cfg : FitCfg) (remaining batch_idx : Nat) (s : LoopState)
    (h : ((batchBody cfg batch_idx s).errored || (batchBody cfg batch_idx s).attrErrored
        || (batchBody cfg batch_idx s).stop) = true) :
    runBatches cfg (remaining + 1) batch_idx s = batchBody cfg batch_idx s := by
  simp only [runBatches, h, if_true]

/-- `runEpochs` ends after its first epoch when the inner loop raised. -/
theorem runEpochs_halt_err (cfg : FitCfg) (nBatches e : Nat) (s : LoopState)
    (h : ((runBatches cfg nBatches 0 { s with epochsStarted := s.epochsStarted + 1 }).errored
        || (runBatches cfg nBatches 0
          { s with epochsStarted := s.epochsStarted + 1 }).attrErrored) = true) :
    runEpochs cfg nBatches (e + 1) s
      = runBatches cfg nBatches 0 { s with epochsStarted := s.epochsStarted + 1 } := by
  rw [runEpochs_succ, if_pos h]

/-- `runEpochs` ends after its first epoch when the inner loop was left by
`break` without an error: only the epoch-scheduler line still runs. -/
theorem runEpochs_halt_stop (cfg : FitCfg) (nBatches e : Nat) (s : LoopState)
    (h1 : (runBatches cfg nBatches 0
        { s with epochsStarted := s.epochsStarted + 1 }).errored = false)
    (h1a : (runBatches cfg nBatches 0
        { s with epochsStarted := s.epochsStarted + 1 }).attrErrored = false)
    (h2 : (runBatches cfg nBatches 0
        { s with epochsStarted := s.epochsStarted + 1 }).stop = true) :
    runEpochs cfg nBatches (e + 1) s
      = epochSched cfg (runBatches cfg nBatches 0
          { s with epochsStarted := s.epochsStarted + 1 }) := by
  rw [runEpochs_succ, if_neg (by rw [h1, h1a]; simp)]
  obtain ⟨_, pst, _, _, _, _⟩ := epochSched_fields cfg
    (runBatches cfg nBatches 0 { s with epochsStarted := s.epochsStarted + 1 })
  by_cases hat : (epochSched cfg (runBatches cfg nBatches 0
      { s with epochsStarted := s.epochsStarted + 1 })).attrErrored = true
  · rw [if_pos hat]
  · rw [if_neg hat, if_pos (by rw [pst]; exact h2)]

/-! ## Claim theorems -/

/-- C1 (counterexample): calling `fit` with `max_steps = 0` on a data
module with one training batch does NOT perform zero optimizer updates and
does NOT stop before completing the first batch: the first training step
runs in full (global step reaches 1) and fires exactly one optimizer
update, because the stop check runs only after `training_step`. -/
theorem fit_max_steps_zero_performs_update :
    (fit { accumulate_grad_batches := 4, lr_step := LrStep.none, hasScheduler := false,
           max_steps := 0, validation_every_n_steps := 5, save_every_n_steps := 5 } 1 1).updates.length = 1 ∧
    (fit { accumulate_grad_batches := 4, lr_step := LrStep.none, hasScheduler := false,
           max_steps := 0, validation_every_n_steps := 5, save_every_n_steps := 5 } 1 1).global_step = 1 := by
  decide

/-- C1 (amended): `fit` with `max_steps = 0` executes exactly one training
step — which performs one optimizer update, since the accumulation gate
holds at global step 0 — and then halts: the global step ends at 1, only
one epoch is entered, no checkpoint is saved, and no division error is
raised.  (A schedulerless trainer whose granularity still reads the
scheduler attribute aborts with `AttributeError` right afterwards, but
only after this single step has fully run, so the conclusions hold on the
whole domain.) -/
theorem fit_max_steps_zero_single_step (cfg : FitCfg) (max_epochs nBatches : Nat)
    (ha : cfg.accumulate_grad_batches ≠ 0) (hl : lrsOk cfg.lr_step = true)
    (hs : cfg.save_every_n_steps ≠ 0) (hv : cfg.validation_every_n_steps ≠ 0)
    (hms : cfg.max_steps = 0) (he : 1 ≤ max_epochs) (hnB : 1 ≤ nBatches) :
    (fit cfg max_epochs nBatches).global_step = 1 ∧
    (fit cfg max_epochs nBatches).updates = [(0, [0])] ∧
    (fit cfg max_epochs nBatches).saves = [] ∧
    (fit cfg max_epochs nBatches).epochsStarted = 1 ∧
    (fit cfg max_epochs nBatches).errored = false := by
  obtain ⟨E, rfl⟩ : ∃ E, max_epochs = E + 1 := ⟨max_epochs - 1, by omega⟩
  obtain ⟨M, rfl⟩ : ∃ M, nBatches = M + 1 := ⟨nBatches - 1, by omega⟩
  rw [show fit cfg (E + 1) (M + 1) = runEpochs cfg (M + 1) (E + 1) initState from rfl]
  by_cases hna : noAttr cfg 1
  · -- the first step's scheduler branch raises nothing: the break fires
    have hbb := batchBody_stop cfg 0
      { initState with epochsStarted := initState.epochsStarted + 1 } ha hna
      (by rw [hms]; exact Nat.succ_pos _)
    have hrb := runBatches_halt_first cfg M 0
      { initState with epochsStarted := initState.epochsStarted + 1 }
      (by rw [hbb]; simp)
    have hh1 : (runBatches cfg (M + 1) 0
        { initState with epochsStarted := initState.epochsStarted + 1 }).errored = false := by
      rw [hrb, hbb]
      rfl
    have hh1a : (runBatches cfg (M + 1) 0
        { initState with epochsStarted := initState.epochsStarted + 1 }).attrErrored = false := by
      rw [hrb, hbb]
      rfl
    have hh2 : (runBatches cfg (M + 1) 0
        { initState with epochsStarted := initState.epochsStarted + 1 }).stop = true := by
      rw [hrb, hbb]
    rw [runEpochs_halt_stop cfg (M + 1) E initState hh1 hh1a hh2]
    obtain ⟨pg, _, pe, pep, pu, psv⟩ := epochSched_fields cfg
      (runBatches cfg (M + 1) 0 { initState with epochsStarted := initState.epochsStarted + 1 })
    refine ⟨?_, ?_, ?_, ?_, ?_⟩
    · rw [pg, hrb, hbb]
      rfl
    · rw [pu, hrb, hbb]
      simp [initState]
    · rw [psv, hrb, hbb]
      rfl
    · rw [pep, hrb, hbb]
      rfl
    · rw [pe, hrb, hbb]
      rfl
  · -- schedulerless interval granularity whose modulus hits at step 1:
    -- the attribute read aborts the run right after the first step
    have hett : ∃ n, cfg.lr_step = LrStep.every n ∧ n ≠ 0 ∧ 1 % n = 0 ∧
        cfg.hasScheduler = false := by
      cases hlr : cfg.lr_step with
      | epoch => exact absurd (by simp [noAttr, hlr]) hna
      | none => exact absurd (by simp [noAttr, hlr]) hna
      | every n =>
        have hn : n ≠ 0 := by
          rw [hlr] at hl
          simpa [lrsOk] using hl
        by_cases hm : 1 % n = 0
        · by_cases hsc : cfg.hasScheduler = true
          · exact absurd (by simp only [noAttr, hlr]; exact ⟨hn, fun _ => hsc⟩) hna
          · exact ⟨n, rfl, hn, hm, by simpa using hsc⟩
        · exact absurd (by simp only [noAttr, hlr]; exact ⟨hn, fun h => absurd h hm⟩) hna
    obtain ⟨n, hlr, hn, hm, hscf⟩ := hett
    have hbb := batchBody_attr cfg 0
      { initState with epochsStarted := initState.epochsStarted + 1 } n ha hlr hn hm hscf
    have hrb := runBatches_halt_first cfg M 0
      { initState with epochsStarted := initState.epochsStarted + 1 }
      (by rw [hbb]; simp)
    have herrf : ((runBatches cfg (M + 1) 0
        { initState with epochsStarted := initState.epochsStarted + 1 }).errored
        || (runBatches cfg (M + 1) 0
          { initState with epochsStarted := initState.epochsStarted + 1 }).attrErrored)
        = true := by
      rw [hrb, hbb]
      rfl
    rw [runEpochs_halt_err cfg (M + 1) E initState herrf, hrb, hbb]
    refine ⟨rfl, ?_, rfl, rfl, rfl⟩
    simp [initState]

theorem fit_max_steps_zero_single_step_witness :
    (fit { accumulate_grad_batches := 3, lr_step := LrStep.none, hasScheduler := false,
           max_steps := 0, validation_every_n_steps := 7, save_every_n_steps := 7 } 2 3).global_step = 1 ∧
    (fit { accumulate_grad_batches := 3, lr_step := LrStep.none, hasScheduler := false,
           max_steps := 0, validation_every_n_steps := 7, save_every_n_steps := 7 } 2 3).updates = [(0, [0])] ∧
    (fit { accumulate_grad_batches := 3, lr_step := LrStep.none, hasScheduler := false,
           max_steps := 0, validation_every_n_steps := 7, save_every_n_steps := 7 } 2 3).saves = [] ∧
    (fit { accumulate_grad_batches := 3, lr_step := LrStep.none, hasScheduler := false,
           max_steps := 0, validation_every_n_steps := 7, save_every_n_steps := 7 } 2 3).epochsStarted = 1 ∧
    (fit { accumulate_grad_batches := 3, lr_step := LrStep.none, hasScheduler := false,
           max_steps := 0, validation_every_n_steps := 7, save_every_n_steps := 7 } 2 3).errored = false :=
  fit_max_steps_zero_single_step _ 2 3 (by decide) (by decide) (by decide) (by decide)
    (by decide) (by decide) (by decide)

/-- C2: in `training_step`, gradient clipping and the optimizer update
fire exactly on the steps where `global_step % accumulate_grad_batches ==
0`; at `global_step = 0` the gate holds for every accumulation factor, so
the very first batch of every fit call triggers a clip and an update. -/
theorem training_step_gate_spec :
    (∀ accumulate_grad_batches global_step : Nat, accumulate_grad_batches ≠ 0 →
      training_step accumulate_grad_batches global_step =
        Option.some { clipped := decide (global_step % accumulate_grad_batches = 0),
                      updated := decide (global_step % accumulate_grad_batches = 0),
                      grad := [global_step] }) ∧
    (∀ accumulate_grad_batches : Nat, accumulate_grad_batches ≠ 0 →
      training_step accumulate_grad_batches 0 =
        Option.some { clipped := true, updated := true, grad := [0] }) ∧
    (∀ (cfg : FitCfg) (max_epochs nBatches : Nat), cfg.accumulate_grad_batches ≠ 0 →
      lrsOk cfg.lr_step = true → cfg.save_every_n_steps ≠ 0 →
      cfg.validation_every_n_steps ≠ 0 → 1 ≤ max_epochs → 1 ≤ nBatches →
      (fit cfg max_epochs nBatches).updates.head? = Option.some (0, [0])) := by
  refine ⟨fun a g ha => training_step_pos a g ha, ?_, ?_⟩
  · intro a ha
    rw [training_step_pos a 0 ha]
    simp
  · intro cfg max_epochs nBatches ha hl hs hv he hnB
    obtain ⟨E, rfl⟩ : ∃ E, max_epochs = E + 1 := ⟨max_epochs - 1, by omega⟩
    obtain ⟨M, rfl⟩ : ∃ M, nBatches = M + 1 := ⟨nBatches - 1, by omega⟩
    have h1 : (batchBody cfg 0
        { initState with epochsStarted := initState.epochsStarted + 1 }).updates
          = [(0, [0])] := by
      rw [batchBody_updates_pos cfg 0 _ ha]
      simp [initState]
    have h2 : ∃ t, (fit cfg (E + 1) (M + 1)).updates = (0, [0]) :: t := by
      rw [show fit cfg (E + 1) (M + 1) = runEpochs cfg (M + 1) (E + 1) initState from rfl,
        runEpochs_succ]
      set S1 := runBatches cfg (M + 1) 0
        { initState with epochsStarted := initState.epochsStarted + 1 } with hS1
      have hS1u : ∃ t, S1.updates = (0, [0]) :: t := by
        rw [hS1]
        cases hgd : ((batchBody cfg 0
            { initState with epochsStarted := initState.epochsStarted + 1 }).errored
            || (batchBody cfg 0
              { initState with epochsStarted := initState.epochsStarted + 1 }).attrErrored
            || (batchBody cfg 0
              { initState with epochsStarted := initState.epochsStarted + 1 }).stop) with
        | true =>
          refine ⟨[], ?_⟩
          simp only [runBatches, hgd, if_true]
          rw [h1]
        | false =>
          obtain ⟨t, ht⟩ := runBatches_updates_extend cfg M 1
            (batchBody cfg 0 { initState with epochsStarted := initState.epochsStarted + 1 })
          refine ⟨t, ?_⟩
          simp only [runBatches, hgd, Bool.false_eq_true, if_false]
          rw [ht, h1]
          rfl
      obtain ⟨t1, ht1⟩ := hS1u
      obtain ⟨_, _, _, _, pu, _⟩ := epochSched_fields cfg S1
      by_cases c1 : (S1.errored || S1.attrErrored) = true
      · rw [if_pos c1]
        exact ⟨t1, ht1⟩
      · rw [if_neg c1]
        by_cases c2 : (epochSched cfg S1).attrErrored = true
        · rw [if_pos c2]
          exact ⟨t1, by rw [pu, ht1]⟩
        · rw [if_neg c2]
          by_cases c3 : (epochSched cfg S1).stop = true
          · rw [if_pos c3]
            exact ⟨t1, by rw [pu, ht1]⟩
          · rw [if_neg c3]
            obtain ⟨t2, ht2⟩ := runEpochs_updates_extend cfg (M + 1) E (epochSched cfg S1)
            refine ⟨t1 ++ t2, ?_⟩
            rw [ht2, pu, ht1]
            rfl
    obtain ⟨t, ht⟩ := h2
    rw [ht]
    rfl

theorem training_step_gate_spec_witness :
    training_step 2 3 = Option.some { clipped := decide (3 % 2 = 0),
                                      updated := decide (3 % 2 = 0), grad := [3] } ∧
    training_step 5 0 = Option.some { clipped := true, updated := true, grad := [0] } ∧
    (fit { accumulate_grad_batches := 2, lr_step := LrStep.none, hasScheduler := false,
           max_steps := 5, validation_every_n_steps := 1, save_every_n_steps := 1 } 1 2).updates.head?
      = Option.some (0, [0]) :=
  ⟨training_step_gate_spec.1 2 3 (by decide),
   training_step_gate_spec.2.1 5 (by decide),
   training_step_gate_spec.2.2 _ 1 2 (by decide) (by decide) (by decide) (by decide)
     (by decide) (by decide)⟩

/-- C3: `fit` halts as soon as the global step exceeds `max_steps`, even
mid-epoch, and begins no further epoch: over the whole call, exactly
`min (max_epochs * nBatches) (max_steps + 1)` training steps execute and
exactly `min max_epochs ((max_steps + nBatches) / nBatches)` (i.e. the
epochs needed to reach the stop, rounded up) epochs are entered.  The
hypothesis `hsc` restricts to the configurations on which the loop
machinery itself runs to completion: a scheduler present, or no
granularity at all — otherwise the run aborts early with `AttributeError`
on the unset scheduler attribute (see `batchBody_attr`/`epochSched`). -/
theorem fit_halts_once_max_steps_exceeded (cfg : FitCfg) (max_epochs nBatches : Nat)
    (ha : cfg.accumulate_grad_batches ≠ 0) (hl : lrsOk cfg.lr_step = true)
    (hsc : cfg.hasScheduler = true ∨ cfg.lr_step = LrStep.none)
    (hs : cfg.save_every_n_steps ≠ 0) (hv : cfg.validation_every_n_steps ≠ 0)
    (hnB : 1 ≤ nBatches) :
    (fit cfg max_epochs nBatches).global_step
        = min (max_epochs * nBatches) (cfg.max_steps + 1) ∧
    (fit cfg max_epochs nBatches).epochsStarted
        = min max_epochs ((cfg.max_steps + nBatches) / nBatches) := by
  obtain ⟨e1, _, e3, _, _, _⟩ := fit_spec cfg ha hl hsc hs hv max_epochs nBatches hnB
  exact ⟨e1, e3⟩

theorem fit_halts_once_max_steps_exceeded_witness :
    (fit { accumulate_grad_batches := 2, lr_step := LrStep.none, hasScheduler := false,
           max_steps := 7, validation_every_n_steps := 2, save_every_n_steps := 3 } 3 5).global_step
      = min (3 * 5) (7 + 1) ∧
    (fit { accumulate_grad_batches := 2, lr_step := LrStep.none, hasScheduler := false,
           max_steps := 7, validation_every_n_steps := 2, save_every_n_steps := 3 } 3 5).epochsStarted
      = min 3 ((7 + 5) / 5) :=
  fit_halts_once_max_steps_exceeded _ 3 5 (by decide) (by decide) (by decide) (by decide)
    (by decide) (by decide)

/-- C4: `folder_structure` picks the smallest run index that does not yet
exist, never reusing an existing run directory, and adds the new directory
to the filesystem; in particular two constructions in sequence on an empty
base directory yield `run0` and then `run1`. -/
theorem folder_structure_fresh_and_least :
    (∀ fs : List Nat,
      (folder_structure fs).1 ∉ fs ∧
      (∀ m : Nat, m < (folder_structure fs).1 → m ∈ fs) ∧
      (folder_structure fs).2 = (folder_structure fs).1 :: fs) ∧
    (folder_structure []).1 = 0 ∧ (folder_structure ((folder_structure []).2)).1 = 1 := by
  refine ⟨?_, by decide, by decide⟩
  intro fs
  have hnotmem : listMax fs + 1 ∉ fs := fun hmem => by
    have := mem_le_listMax fs _ hmem
    omega
  have hfree : (fun n => fs.contains n) (0 + (listMax fs + 1)) = false := by
    simp only [Nat.zero_add]
    simpa using hnotmem
  obtain ⟨h1, _, h3⟩ := findFree_spec (fun n => fs.contains n) (listMax fs + 2) 0
    ⟨listMax fs + 1, by omega, hfree⟩
  have h1' : fs.contains (findFree (fun n => fs.contains n) (listMax fs + 2) 0) = false := h1
  refine ⟨?_, ?_, rfl⟩
  · intro hmem
    have hc : fs.contains (folder_structure fs).1 = true := by simpa using hmem
    rw [show (folder_structure fs).1
        = findFree (fun n => fs.contains n) (listMax fs + 2) 0 from rfl, h1'] at hc
    exact Bool.noConfusion hc
  · intro m hm
    have hc : fs.contains m = true := h3 m (Nat.zero_le m) hm
    simpa using hc

theorem folder_structure_fresh_and_least_witness :
    (folder_structure [0, 1, 3]).1 ∉ [0, 1, 3] ∧ (1 : Nat) ∈ [0, 1, 3] :=
  ⟨(folder_structure_fresh_and_least.1 [0, 1, 3]).1,
   (folder_structure_fresh_and_least.1 [0, 1, 3]).2.1 1 (by decide)⟩

/-- C5: during a fit call that is not cut short by `max_steps`
(`max_epochs * nBatches ≤ max_steps`), a checkpoint is saved at exactly
the global steps in `1..max_epochs * nBatches` that are multiples of
`save_every_n_steps`, and at no other step.  The hypothesis `hsc`
restricts to the configurations on which the run is not aborted early by
an `AttributeError` on the unset scheduler attribute: a scheduler present,
or no granularity at all. -/
theorem fit_saves_exactly_multiples (cfg : FitCfg) (max_epochs nBatches : Nat)
    (ha : cfg.accumulate_grad_batches ≠ 0) (hl : lrsOk cfg.lr_step = true)
    (hsc : cfg.hasScheduler = true ∨ cfg.lr_step = LrStep.none)
    (hs : cfg.save_every_n_steps ≠ 0) (hv : cfg.validation_every_n_steps ≠ 0)
    (hnB : 1 ≤ nBatches) (hnc : max_epochs * nBatches ≤ cfg.max_steps) :
    ∀ x : Nat, x ∈ (fit cfg max_epochs nBatches).saves ↔
      (1 ≤ x ∧ x ≤ max_epochs * nBatches ∧ x % cfg.save_every_n_steps = 0) := by
  obtain ⟨_, _, _, _, e5, _⟩ := fit_spec cfg ha hl hsc hs hv max_epochs nBatches hnB
  intro x
  rw [e5, show min (max_epochs * nBatches) cfg.max_steps = max_epochs * nBatches from by omega,
    mem_savesFrom]
  constructor
  · rintro ⟨h1, h2, h3⟩
    exact ⟨h1, by omega, h3⟩
  · rintro ⟨h1, h2, h3⟩
    exact ⟨h1, by omega, h3⟩

theorem fit_saves_exactly_multiples_witness :
    (5 ∈ (fit { accumulate_grad_batches := 1, lr_step := LrStep.none, hasScheduler := false,
                max_steps := 100, validation_every_n_steps := 3, save_every_n_steps := 5 } 3 5).saves
      ↔ (1 ≤ 5 ∧ 5 ≤ 3 * 5 ∧ 5 % 5 = 0)) ∧
    (7 ∈ (fit { accumulate_grad_batches := 1, lr_step := LrStep.none, hasScheduler := false,
                max_steps := 100, validation_every_n_steps := 3, save_every_n_steps := 5 } 3 5).saves
      ↔ (1 ≤ 7 ∧ 7 ≤ 3 * 5 ∧ 7 % 5 = 0)) :=
  ⟨fit_saves_exactly_multiples _ 3 5 (by decide) (by decide) (by decide) (by decide)
     (by decide) (by decide) (by decide) 5,
   fit_saves_exactly_multiples _ 3 5 (by decide) (by decide) (by decide) (by decide)
     (by decide) (by decide) (by decide) 7⟩

/-- C6: flattening the nested configuration `{a: {b: 1}, c: "x"}` with
separator `/` and applying the logger's string coercion yields exactly
`{"a/b": "1", "c": "x"}`. -/
theorem flatten_hparams_example :
    init_hparams [("a", CfgValue.dict [("b", CfgValue.nat 1)]), ("c", CfgValue.str "x")]
      = [("a/b", CfgValue.str "1"), ("c", CfgValue.str "x")] := by
  simp [init_hparams, flatten_dict, isStr, pyStr]
  rfl

/-- C7 (counterexample): an epoch abandoned early by the `max_steps` stop
still advances the epoch-granularity scheduler, because the scheduler step
precedes the `if stop: break` check: with `max_steps = 0` and 2 batches per
epoch the batch loop is abandoned after one step (zero epochs complete),
yet the scheduler advances once. -/
theorem fit_abandoned_epoch_advances_scheduler :
    (fit { accumulate_grad_batches := 1, lr_step := LrStep.epoch, hasScheduler := true,
           max_steps := 0, validation_every_n_steps := 1, save_every_n_steps := 1 } 1 2).schedSteps = 1 ∧
    (fit { accumulate_grad_batches := 1, lr_step := LrStep.epoch, hasScheduler := true,
           max_steps := 0, validation_every_n_steps := 1, save_every_n_steps := 1 } 1 2).global_step = 1 := by
  decide

/-- C7 (amended): with epoch granularity and a scheduler present, `fit`
advances the scheduler exactly once per epoch whose batch loop ended —
whether it completed or was abandoned by the `max_steps` stop — i.e. once
per epoch entered. -/
theorem fit_epoch_scheduler_per_epoch_entered (cfg : FitCfg) (max_epochs nBatches : Nat)
    (ha : cfg.accumulate_grad_batches ≠ 0) (hs : cfg.save_every_n_steps ≠ 0)
    (hv : cfg.validation_every_n_steps ≠ 0) (hnB : 1 ≤ nBatches)
    (hep : cfg.lr_step = LrStep.epoch) (hsc : cfg.hasScheduler = true) :
    (fit cfg max_epochs nBatches).schedSteps = (fit cfg max_epochs nBatches).epochsStarted := by
  have hl : lrsOk cfg.lr_step = true := by rw [hep]; rfl
  obtain ⟨_, _, e3, _, _, e6⟩ := fit_spec cfg ha hl (Or.inl hsc) hs hv max_epochs nBatches hnB
  rw [e3, e6 ⟨hep, hsc⟩]

theorem fit_epoch_scheduler_per_epoch_entered_witness :
    (fit { accumulate_grad_batches := 1, lr_step := LrStep.epoch, hasScheduler := true,
           max_steps := 3, validation_every_n_steps := 1, save_every_n_steps := 1 } 4 2).schedSteps
      = (fit { accumulate_grad_batches := 1, lr_step := LrStep.epoch, hasScheduler := true,
               max_steps := 3, validation_every_n_steps := 1, save_every_n_steps := 1 } 4 2).epochsStarted :=
  fit_epoch_scheduler_per_epoch_entered _ 4 2 (by decide) (by decide) (by decide) (by decide)
    (by decide) (by decide)

/-- C8 (counterexample): `update_hyperparams` merges argument values into
the stored hyperparameter mapping without any string coercion, so the
all-values-are-strings invariant is not preserved for arbitrary argument
mappings: merging `{"k": 1}` stores the non-string value `1`. -/
theorem update_hyperparams_stores_nonstring :
    allStrings (update_hyperparams [("a", CfgValue.str "1")] [] [("k", CfgValue.nat 1)] []).1
      = false := rfl

/-- C8 (amended): every value in the hyperparameter mapping is a string
after construction, and `update_hyperparams` — whose merge applies no
coercion — preserves this invariant whenever the argument mapping's values
are themselves all strings (but not for all argument mappings, as the
counterexample shows). -/
theorem hparams_string_invariant :
    (∀ cfg : List (String × CfgValue), allStrings (init_hparams cfg) = true) ∧
    (∀ hparams metrics new_hparams new_metrics : List (String × CfgValue),
      allStrings hparams = true → allStrings new_hparams = true →
      allStrings (update_hyperparams hparams metrics new_hparams new_metrics).1 = true) :=
  ⟨allStrings_init_hparams,
   fun hparams _ new_hparams _ h1 h2 => allStrings_dictUpdate hparams new_hparams h1 h2⟩

theorem hparams_string_invariant_witness :
    allStrings (update_hyperparams [("a", CfgValue.str "x")] [] [("b", CfgValue.str "y")] []).1
        = true :=
  hparams_string_invariant.2 [("a", CfgValue.str "x")] [] [("b", CfgValue.str "y")] []
    (by rfl) (by rfl)

/-- C9 (counterexample): a run that processes one training batch with
`max_steps = 0` raises no division error even though both
`save_every_n_steps` and `validation_every_n_steps` are zero — the break
fires before either modulo is evaluated — refuting the claimed "if and
only if all three divisors are nonzero". -/
theorem fit_zero_divisors_without_error :
    (fit { accumulate_grad_batches := 1, lr_step := LrStep.none, hasScheduler := false,
           max_steps := 0, validation_every_n_steps := 0, save_every_n_steps := 0 } 1 1).errored = false ∧
    (fit { accumulate_grad_batches := 1, lr_step := LrStep.none, hasScheduler := false,
           max_steps := 0, validation_every_n_steps := 0, save_every_n_steps := 0 } 1 1).global_step = 1 := by
  decide

/-- C9 (amended): the three modulo operations carry no zero guard.  For a
run with at least one training batch, a valid `lr_step` interval, and a
scheduler configuration that raises no `AttributeError` (a scheduler
present, or no granularity — otherwise the unset scheduler attribute
aborts the run first, before any modulus is reached): if all three
divisors are nonzero the run raises no `ZeroDivisionError`; and
conversely, when `max_steps ≥ 1` — so the first batch reaches the save and
validation checks — the run is free of `ZeroDivisionError` only if all
three divisors are nonzero. -/
theorem fit_divisor_totality (cfg : FitCfg) (max_epochs nBatches : Nat)
    (hl : lrsOk cfg.lr_step = true)
    (hsc : cfg.hasScheduler = true ∨ cfg.lr_step = LrStep.none)
    (he : 1 ≤ max_epochs) (hnB : 1 ≤ nBatches) :
    ((cfg.accumulate_grad_batches ≠ 0 ∧ cfg.save_every_n_steps ≠ 0 ∧
        cfg.validation_every_n_steps ≠ 0) →
      (fit cfg max_epochs nBatches).errored = false) ∧
    (1 ≤ cfg.max_steps → (fit cfg max_epochs nBatches).errored = false →
      cfg.accumulate_grad_batches ≠ 0 ∧ cfg.save_every_n_steps ≠ 0 ∧
        cfg.validation_every_n_steps ≠ 0) := by
  constructor
  · rintro ⟨ha, hs, hv⟩
    exact (fit_spec cfg ha hl hsc hs hv max_epochs nBatches hnB).2.1
  · intro hms hok
    refine ⟨?_, ?_, ?_⟩ <;>
    · intro h0
      have hbad := fit_err_of_zero_divisor cfg max_epochs nBatches hl
        (sched_consistent_every cfg hsc) hms he hnB (by tauto)
      rw [hbad] at hok
      exact Bool.noConfusion hok

theorem fit_divisor_totality_witness :
    (fit { accumulate_grad_batches := 1, lr_step := LrStep.none, hasScheduler := false,
           max_steps := 3, validation_every_n_steps := 1, save_every_n_steps := 1 } 1 2).errored
      = false :=
  (fit_divisor_totality _ 1 2 (by decide) (by decide) (by decide) (by decide)).1
    ⟨by decide, by decide, by decide⟩

/-- C10: `training_step` zeroes the gradient buffers before every backward
pass, so a successful call always ends with exactly the current batch's
gradient buffered; consequently every optimizer update of a fit call
consumes only the gradient of its own step, never gradients accumulated
from skipped batches. -/
theorem training_step_uses_only_current_gradient :
    (∀ accumulate_grad_batches global_step : Nat, accumulate_grad_batches ≠ 0 →
      (training_step accumulate_grad_batches global_step).map (fun eff => eff.grad)
        = Option.some [global_step]) ∧
    (∀ (cfg : FitCfg) (max_epochs nBatches : Nat), cfg.accumulate_grad_batches ≠ 0 →
      lrsOk cfg.lr_step = true → cfg.save_every_n_steps ≠ 0 →
      cfg.validation_every_n_steps ≠ 0 → 1 ≤ nBatches →
      (fit cfg max_epochs nBatches).updates
        = (fit cfg max_epochs nBatches).updates.map (fun u => (u.1, [u.1]))) := by
  constructor
  · intro a g ha
    rw [training_step_pos a g ha]
    rfl
  · intro cfg max_epochs nBatches _ _ _ _ _
    exact (updates_map_self _ (fit_updates_inv cfg max_epochs nBatches)).symm

theorem training_step_uses_only_current_gradient_witness :
    (training_step 3 7).map (fun eff => eff.grad) = Option.some [7] ∧
    (fit { accumulate_grad_batches := 2, lr_step := LrStep.none, hasScheduler := false,
           max_steps := 9, validation_every_n_steps := 1, save_every_n_steps := 1 } 1 4).updates
      = (fit { accumulate_grad_batches := 2, lr_step := LrStep.none, hasScheduler := false,
               max_steps := 9, validation_every_n_steps := 1, save_every_n_steps := 1 } 1 4).updates.map
          (fun u => (u.1, [u.1])) :=
  ⟨training_step_uses_only_current_gradient.1 3 7 (by decide),
   training_step_uses_only_current_gradient.2 _ 1 4 (by decide) (by decide) (by decide)
     (by decide) (by decide)⟩

end LKAN
